import Mathlib

/-!
Verification of the makerhook repository specification against a shallow
embedding of its Python source. Prices are modelled as rationals so that
the min/max scaling arithmetic is exact. The LSTM regression function is
abstracted as a step function from a window and an optional carried state
to a prediction and a new state; everything around it (scaling, windowing,
the autoregressive rollout loops, padding, error paths, the data-fetcher
control flow) is translated directly from the source files.
-/

namespace MakerHook

/-! ## MinMaxScaler (sklearn, feature_range (0, 1)), over rationals.

Embeds sklearn MinMaxScaler as used in models/lstm/model.py: fit stores the
minimum and maximum of the close column; transform maps x to
(x - min) / (max - min) and inverse_transform is the inverse map. sklearn
replaces a zero data range by 1 before dividing (handle_zeros_in_scale), so
both maps stay well defined when all inputs are equal. -/

structure MinMaxScalerQ where
  data_min : ℚ
  data_max : ℚ
deriving Repr, DecidableEq

/-- Denominator actually used by sklearn: the data range, with a zero range
replaced by 1. -/
def MinMaxScalerQ.rangeDenom (s : MinMaxScalerQ) : ℚ :=
  if s.data_max = s.data_min then 1 else s.data_max - s.data_min

/-- Forward transform of MinMaxScaler with feature_range (0, 1). -/
def MinMaxScalerQ.transform (s : MinMaxScalerQ) (x : ℚ) : ℚ :=
  (x - s.data_min) / s.rangeDenom

/-- Inverse transform of MinMaxScaler with feature_range (0, 1). -/
def MinMaxScalerQ.inverse_transform (s : MinMaxScalerQ) (y : ℚ) : ℚ :=
  y * s.rangeDenom + s.data_min

/-- Minimum of a list of rationals, 0 for the empty list (fit is only ever
called on a nonempty column in the source). -/
def listMin : List ℚ → ℚ
  | [] => 0
  | x :: xs => xs.foldl min x

/-- Maximum of a list of rationals, 0 for the empty list. -/
def listMax : List ℚ → ℚ
  | [] => 0
  | x :: xs => xs.foldl max x

/-- Fitting the scaler on a close-price series records its min and max,
exactly as scaler.fit_transform does at entry of train, inference and
forecast in models/lstm/model.py. -/
def fitScaler (closes : List ℚ) : MinMaxScalerQ :=
  { data_min := listMin closes, data_max := listMax closes }

/-! ## Windowing

Two windowing routines exist in models/lstm/model.py: the inline sliding
window of inference (lines 184-197) and the helper _prepare_data
(lines 382-391) used by train. -/

/-- Sliding-window construction of LstmModel.inference, lines 184-197:
time_steps is first clamped to the series length; when the series length is
at most the clamped time_steps a single window of the first time_steps
elements is used, otherwise one window close_prices_scaled[i - ts : i] is
emitted for each i in range(ts, N). -/
def inference_windows (time_steps : ℕ) (xs : List ℚ) : List (List ℚ) :=
  let ts := min time_steps xs.length
  if xs.length ≤ ts then
    [xs.take ts]
  else
    (List.range (xs.length - ts)).map (fun k => (xs.drop k).take ts)

/-- Windowing of LstmModel._prepare_data, lines 382-391. When
len(data) <= time_steps the Python code sets time_steps = len(data) - 1 and
the loop for i in range(time_steps, len(data)) then runs exactly once,
taking data[0 : len(data) - 1]. For the empty series the Python value
len(data) - 1 is -1, so range(-1, 0) still runs once and data[0:-1] is the
empty slice: one empty window. -/
def prepare_data (time_steps : ℕ) (xs : List ℚ) : List (List ℚ) :=
  if xs.length = 0 then
    [[]]
  else
    let ts := if xs.length ≤ time_steps then xs.length - 1 else time_steps
    (List.range (xs.length - ts)).map (fun k => (xs.drop k).take ts)

/-! ## Autoregressive rollout

The regression function (self.model in the source) is abstracted as a step
function from a window and an optional carried recurrent state to a scalar
prediction and a new state; passing none corresponds to calling the model
without a hidden state, in which case the LSTM falls back to an all-zeros
state by itself. -/

/-- Recursive prediction loop of LstmModel.inference (lines 216-276): at
each step the model is applied to the most recent window together with the
carried hidden state; the prediction (still in scaled space) is appended to
the output and the next window drops the oldest element of the current
window and appends the prediction; the returned state is carried to the
next step. -/
def inferLoop {σ : Type} (f : List ℚ → Option σ → ℚ × σ) :
    ℕ → List ℚ → Option σ → List ℚ
  | 0, _, _ => []
  | n + 1, w, st =>
    let r := f w st
    r.1 :: inferLoop f n (w.drop 1 ++ [r.1]) (some r.2)

/-- Prediction loop of LstmModel.forecast (lines 341-356): at each step the
model is applied to the current window with NO carried state (the source
discards the returned hidden state and calls self.model(inputs) without
one), the prediction is inverse-transformed immediately and collected, and
the window is updated with the scaled prediction. -/
def forecastLoop {σ : Type} (f : List ℚ → Option σ → ℚ × σ)
    (s : MinMaxScalerQ) : ℕ → List ℚ → List ℚ
  | 0, _ => []
  | n + 1, w =>
    let ps := (f w none).1
    s.inverse_transform ps :: forecastLoop f s n (w.drop 1 ++ [ps])

/-- Window-and-state trajectory of the inference rollout: position k holds
the window consumed at step k together with the carried state entering step
k; the successor drops the oldest element, appends the prediction of step k
and carries the state produced by step k. -/
def inferTraj {σ : Type} (f : List ℚ → Option σ → ℚ × σ)
    (w0 : List ℚ) (st0 : Option σ) : ℕ → List ℚ × Option σ
  | 0 => (w0, st0)
  | k + 1 =>
    let ws := inferTraj f w0 st0 k
    let r := f ws.1 ws.2
    (ws.1.drop 1 ++ [r.1], some r.2)

/-- Window trajectory of the forecast rollout: the window of step k + 1
drops the oldest element of the window of step k and appends the scaled
prediction of step k (computed with no carried state, as in the source). -/
def forecastTraj {σ : Type} (f : List ℚ → Option σ → ℚ × σ)
    (w0 : List ℚ) : ℕ → List ℚ
  | 0 => w0
  | k + 1 => (forecastTraj f w0 k).drop 1 ++ [(f (forecastTraj f w0 k) none).1]

/-- Stage of LstmModel.inference after the sliding windows were built
(lines 198-306): fail when no window exists (lines 202-205), otherwise run
the recursive loop — for every row when a single window exists (line 224),
otherwise once per window past the first time_steps rows (line 255) —
starting from the most recent window and no hidden state, inverse-transform
the collected predictions with the entry scaler, and pad by repeating the
final value until the output matches the row count (lines 288-291). -/
def inference_given_windows {σ : Type} (f : List ℚ → Option σ → ℚ × σ)
    (s : MinMaxScalerQ) (n_rows time_steps : ℕ) (xtest : List (List ℚ)) :
    Except String (List ℚ) :=
  if xtest.length = 0 then
    .error "No sequences were generated for testing. Check if input data is sufficient."
  else
    let n := if xtest.length = 1 then n_rows
             else n_rows - min time_steps n_rows
    let preds := inferLoop f n (xtest.getLastD []) none
    if preds.length = 0 then
      .error "No predictions were generated."
    else
      let inv := preds.map s.inverse_transform
      if inv.length < n_rows then
        .ok (inv ++ List.replicate (n_rows - inv.length) (inv.getLastD 0))
      else
        .ok inv

/-- LstmModel.inference (lines 162-308) after resampling, as a function of
the resampled close column: fit the scaler, scale, build the sliding
windows and hand over to the post-windowing stage. -/
def inference {σ : Type} (f : List ℚ → Option σ → ℚ × σ)
    (time_steps : ℕ) (closes : List ℚ) : Except String (List ℚ) :=
  let s := fitScaler closes
  inference_given_windows f s closes.length time_steps
    (inference_windows time_steps (closes.map s.transform))

/-- LstmModel.forecast (lines 311-380) after resampling, as a function of
the resampled close column: reject series shorter than time_steps, fit the
scaler, scale, take the last time_steps scaled values as the starting
window and run the forecast loop for exactly steps iterations. -/
def forecast {σ : Type} (f : List ℚ → Option σ → ℚ × σ)
    (time_steps steps : ℕ) (closes : List ℚ) : Except String (List ℚ) :=
  if closes.length < time_steps then
    .error "Not enough data to generate a forecast."
  else
    let s := fitScaler closes
    let scaled := closes.map s.transform
    .ok (forecastLoop f s steps (scaled.drop (scaled.length - time_steps)))

/-! ## Train/validation split (LstmModel.train, lines 99-105) -/

/-- Python slice x[:-v] for a nonnegative v: empty when v = 0 because -0 is
0 and x[:0] is empty; otherwise everything before the last v elements. -/
def pySliceToNeg {α : Type} (v : ℕ) (xs : List α) : List α :=
  if v = 0 then [] else xs.take (xs.length - v)

/-- Python slice x[-v:] for a nonnegative v: the whole list when v = 0,
otherwise the last v elements. -/
def pySliceFromNeg {α : Type} (v : ℕ) (xs : List α) : List α :=
  if v = 0 then xs else xs.drop (xs.length - v)

/-- Input windows used by train: every window produced by _prepare_data
except the last (train_data[:-1] on line 100). -/
def train_split_inputs (time_steps : ℕ) (scaled : List ℚ) : List (List ℚ) :=
  (prepare_data time_steps scaled).dropLast

/-- Split of LstmModel.train, lines 103-104: val_size is
int(len(x_train) * validation_split) (truncation, which on the nonnegative
fractions in use is the floor) and the split is
(x_train[:-val_size], x_train[-val_size:]) with Python slice semantics. -/
def train_val_split (validation_split : ℚ) (x_train : List (List ℚ)) :
    List (List ℚ) × List (List ℚ) :=
  let val_size : ℕ := ⌊(x_train.length : ℚ) * validation_split⌋₊
  (pySliceToNeg val_size x_train, pySliceFromNeg val_size x_train)

/-! ## Data fetchers

HTTP interaction is abstracted as a value describing what requests.get plus
response.json() did: the request raised, or a response with a status code
arrived whose body either parsed or was malformed. An Except.error result
of a fetch function models a Python exception escaping the fetcher. -/

inductive HttpResult (α : Type) where
  | requestError (msg : String)
  | response (status : ℕ) (body : Except String α)

/-- Row of the canonical OHLCV table (dates as integer timestamps). -/
structure OHLCVRow where
  date : ℕ
  open_ : ℚ
  high : ℚ
  low : ℚ
  close : ℚ
  volume : ℚ
deriving Repr, DecidableEq, Inhabited

/-- DataFetcher._normalize_tiingo_data (tiingo_data_fetcher.py lines
140-156): empty input gives an empty table, otherwise the rows are kept
with the canonical columns selected. -/
def normalize_tiingo_data (data : List OHLCVRow) : List OHLCVRow :=
  if data.length = 0 then [] else data

/-- DataFetcher.fetch_tiingo_stock_data (lines 36-80), cache-miss path.
The requests.get call and response.json() on this path are NOT wrapped in
any try/except, so a raised network error or a malformed JSON body
propagates out of the fetcher; only a non-200 status is converted into an
empty table. -/
def fetch_tiingo_stock_data (resp : HttpResult (List OHLCVRow)) :
    Except String (List OHLCVRow) :=
  match resp with
  | .requestError e => .error e
  | .response status body =>
    if status ≠ 200 then .ok []
    else
      match body with
      | .error e => .error e
      | .ok data => .ok (normalize_tiingo_data data)

/-- Item of the Tiingo crypto JSON response: an object that may or may not
carry a priceData list. -/
structure CryptoItem where
  priceData : Option (List OHLCVRow)

/-- DataFetcher.fetch_tiingo_crypto_data (lines 82-138), cache-miss path.
Here requests.get and raise_for_status sit inside a try/except that
converts any request error (including the HTTPError raised for a 4xx/5xx
status) into an empty table, and the JSON parsing sits inside a second
try/except converting parse errors into an empty table; an empty body or a
first item without priceData also give an empty table. -/
def fetch_tiingo_crypto_data (resp : HttpResult (List CryptoItem)) :
    Except String (List OHLCVRow) :=
  match resp with
  | .requestError _ => .ok []
  | .response status body =>
    if status ≥ 400 then .ok []
    else
      match body with
      | .error _ => .ok []
      | .ok [] => .ok []
      | .ok (item :: _) =>
        match item.priceData with
        | none => .ok []
        | some pd => .ok (normalize_tiingo_data pd)

/-! ## CoinGecko fetcher (coingecko_data_fetcher.py) -/

/-- Supported coin tickers and their CoinGecko identifiers (lines 17-28). -/
def COIN_MAPPING : List (String × String) :=
  [("ETH", "ethereum"), ("BTC", "bitcoin"), ("USDT", "tether"),
   ("BNB", "binancecoin"), ("USDC", "usd-coin"), ("XRP", "ripple"),
   ("ADA", "cardano"), ("DOGE", "dogecoin"), ("SOL", "solana"),
   ("TRX", "tron")]

/-- ASCII model of Python str.upper on one character: lowercase letters
(code points 97 to 122) are shifted to uppercase, others are unchanged. -/
def upperChar (c : Char) : Char :=
  if 97 ≤ c.toNat ∧ c.toNat ≤ 122 then Char.ofNat (c.toNat - 32) else c

/-- ASCII model of Python str.upper. -/
def upperStr (s : String) : String := String.mk (s.data.map upperChar)

/-- Body of the CoinGecko market_chart JSON response: parallel lists of
(timestamp, price) and (timestamp, volume) pairs. -/
structure MarketChart where
  prices : List (ℕ × ℚ)
  total_volumes : List (ℕ × ℚ)

/-- Inner merge of the price and volume frames on the timestamp column
(line 82); timestamps coming from the API are unique per frame. -/
def mergeOnTimestamp (prices volumes : List (ℕ × ℚ)) : List (ℕ × ℚ × ℚ) :=
  prices.filterMap fun p =>
    (volumes.find? (fun q => q.1 = p.1)).map (fun q => (p.1, p.2, q.2))

/-- Synthesis of the open, high and low columns from the close column
(lines 89-91): open is the previous close (the first row falls back to its
own close, the fillna), high is the row-wise max of open and close, and low
is the row-wise min. -/
def synthRows (prevClose : Option ℚ) : List (ℕ × ℚ × ℚ) → List OHLCVRow
  | [] => []
  | (t, c, v) :: rest =>
    let o := prevClose.getD c
    { date := t, open_ := o, high := max o c, low := min o c,
      close := c, volume := v } :: synthRows (some c) rest

/-- CoingeckoDataFetcher.fetch_real_time_data (lines 35-108), cache-miss
path (a cache hit returns a table previously produced by this same path):
the ticker is uppercased and looked up in COIN_MAPPING, an unsupported
ticker giving an empty table before any network interaction; request
errors, error statuses (raise_for_status), JSON errors (the broad except)
and empty price or volume lists all give an empty table; otherwise the
merged rows get synthetic open/high/low columns. -/
def fetch_real_time_data (resp : HttpResult MarketChart)
    (coin_ticker : String) : List OHLCVRow :=
  let t := upperStr coin_ticker
  if (COIN_MAPPING.find? (fun p => p.1 = t)).isNone then []
  else
    match resp with
    | .requestError _ => []
    | .response status body =>
      if status ≥ 400 then []
      else
        match body with
        | .error _ => []
        | .ok data =>
          if data.prices.length = 0 ∨ data.total_volumes.length = 0 then []
          else synthRows none (mergeOnTimestamp data.prices data.total_volumes)

/-- Step count of the main rollout of inference: one prediction per row
when a single window exists, otherwise one per window past the first
time_steps rows. -/
def num_raw_preds (time_steps : ℕ) (closes : List ℚ) : ℕ :=
  if (inference_windows time_steps
        (closes.map (fitScaler closes).transform)).length = 1
  then closes.length
  else closes.length - min time_steps closes.length

/-- Follows the words of the spec (section 4.1 rollout contract): the
forecast loop as the spec describes it, with the carried state produced at
step k passed into step k + 1 and no carried state at the first step. To be
compared with forecastLoop, which is what the source actually does. -/
def forecastLoopThreaded {σ : Type} (f : List ℚ → Option σ → ℚ × σ)
    (s : MinMaxScalerQ) : ℕ → List ℚ → Option σ → List ℚ
  | 0, _, _ => []
  | n + 1, w, st =>
    let r := f w st
    s.inverse_transform r.1 :: forecastLoopThreaded f s n (w.drop 1 ++ [r.1]) (some r.2)

/-- Regression function whose prediction reveals the carried state it
received: with no carried state it predicts 0 and emits state 1; with
carried state v it predicts v and emits state v + 1. -/
def fStateProbe : List ℚ → Option ℚ → ℚ × ℚ :=
  fun _ st =>
    match st with
    | none => (0, 1)
    | some v => (v, v + 1)

/-- Row-wise invariant of the synthetic OHLC columns at position i of a
table: low is the min and high the max of open and close (hence the four
orderings), the open of the next row equals the close of this row, and the
first row opens at its own close. -/
def syntheticOHLCInvariant (rows : List OHLCVRow) (i : ℕ) : Prop :=
  (rows.getD i default).low =
    min (rows.getD i default).open_ (rows.getD i default).close ∧
  (rows.getD i default).high =
    max (rows.getD i default).open_ (rows.getD i default).close ∧
  (rows.getD i default).low ≤ (rows.getD i default).open_ ∧
  (rows.getD i default).open_ ≤ (rows.getD i default).high ∧
  (rows.getD i default).low ≤ (rows.getD i default).close ∧
  (rows.getD i default).close ≤ (rows.getD i default).high ∧
  (i + 1 < rows.length →
    (rows.getD (i + 1) default).open_ = (rows.getD i default).close) ∧
  (rows.getD 0 default).open_ = (rows.getD 0 default).close

/-! ## Helper lemmas -/

theorem rangeDenom_ne_zero (s : MinMaxScalerQ) : s.rangeDenom ≠ 0 := by
  unfold MinMaxScalerQ.rangeDenom
  split
  · exact one_ne_zero
  · exact sub_ne_zero.mpr (by assumption)

/-- The scaler transform followed by its inverse is the identity, exactly,
for every rational input (the zero-range guard keeps the denominator
nonzero). -/
theorem scaler_roundtrip (s : MinMaxScalerQ) (x : ℚ) :
    s.inverse_transform (s.transform x) = x := by
  unfold MinMaxScalerQ.inverse_transform MinMaxScalerQ.transform
  rw [div_mul_cancel₀ _ (rangeDenom_ne_zero s)]
  ring

theorem map_range_eq_replicate {α : Type} (n : ℕ) (f : ℕ → α) (c : α)
    (h : ∀ k < n, f k = c) : (List.range n).map f = List.replicate n c := by
  induction n with
  | zero => rfl
  | succ m ih =>
    rw [List.range_succ, List.map_append,
      ih (fun k hk => h k (Nat.lt_succ_of_lt hk)), List.replicate_succ']
    simp [h m (Nat.lt_succ_self m)]

theorem inferTraj_shift {σ : Type} (f : List ℚ → Option σ → ℚ × σ)
    (w0 : List ℚ) (st0 : Option σ) (k : ℕ) :
    inferTraj f w0 st0 (k + 1) =
      inferTraj f (w0.drop 1 ++ [(f w0 st0).1]) (some (f w0 st0).2) k := by
  induction k with
  | zero => rfl
  | succ m ih =>
    simp only [inferTraj] at ih ⊢
    rw [← ih]

theorem forecastTraj_shift {σ : Type} (f : List ℚ → Option σ → ℚ × σ)
    (w0 : List ℚ) (k : ℕ) :
    forecastTraj f w0 (k + 1) =
      forecastTraj f (w0.drop 1 ++ [(f w0 none).1]) k := by
  induction k with
  | zero => rfl
  | succ m ih =>
    simp only [forecastTraj] at ih ⊢
    rw [← ih]

/-- The inference loop lists, in order, the predictions of the regression
function along the window-and-state trajectory. -/
theorem inferLoop_eq_traj {σ : Type} (f : List ℚ → Option σ → ℚ × σ) (n : ℕ) :
    ∀ (w0 : List ℚ) (st0 : Option σ),
      inferLoop f n w0 st0 = (List.range n).map
        (fun k => (f (inferTraj f w0 st0 k).1 (inferTraj f w0 st0 k).2).1) := by
  induction n with
  | zero => intro w0 st0; rfl
  | succ m ih =>
    intro w0 st0
    rw [List.range_succ_eq_map, List.map_cons, List.map_map]
    show inferLoop f (m + 1) w0 st0 = _ :: _
    rw [inferLoop, ih]
    refine congrArg₂ List.cons rfl ?_
    apply List.map_congr_left
    intro k _
    simp only [Function.comp_apply]
    rw [inferTraj_shift]

/-- The forecast loop lists, in order, the inverse-transformed predictions
of the regression function along the window trajectory, each computed with
no carried state. -/
theorem forecastLoop_eq_traj {σ : Type} (f : List ℚ → Option σ → ℚ × σ)
    (s : MinMaxScalerQ) (n : ℕ) :
    ∀ (w0 : List ℚ),
      forecastLoop f s n w0 = (List.range n).map
        (fun k => s.inverse_transform (f (forecastTraj f w0 k) none).1) := by
  induction n with
  | zero => intro w0; rfl
  | succ m ih =>
    intro w0
    rw [List.range_succ_eq_map, List.map_cons, List.map_map]
    show forecastLoop f s (m + 1) w0 = _ :: _
    rw [forecastLoop, ih]
    refine congrArg₂ List.cons rfl ?_
    apply List.map_congr_left
    intro k _
    simp only [Function.comp_apply]
    rw [forecastTraj_shift]

theorem inferLoop_length {σ : Type} (f : List ℚ → Option σ → ℚ × σ) (n : ℕ) :
    ∀ (w0 : List ℚ) (st0 : Option σ), (inferLoop f n w0 st0).length = n := by
  induction n with
  | zero => intro w0 st0; rfl
  | succ m ih =>
    intro w0 st0
    rw [inferLoop]
    simp only [List.length_cons, ih]

/-- Unfolding of forecast on a series long enough to forecast from. -/
theorem forecast_eq_loop {σ : Type} (f : List ℚ → Option σ → ℚ × σ)
    (time_steps steps : ℕ) (closes : List ℚ) (h : time_steps ≤ closes.length) :
    forecast f time_steps steps closes = .ok (forecastLoop f (fitScaler closes)
      steps ((closes.map (fitScaler closes).transform).drop
        (closes.length - time_steps))) := by
  unfold forecast
  rw [if_neg (Nat.not_lt.mpr h)]
  simp only [List.length_map]

/-! ## C1: window counts -/

/-- C1 counterexample: the claim says that for a series of N rows with
N ≤ time_steps both windowing paths produce one window of length N, but on
the two-element series [1, 2] with time_steps = 5 the training-path
_prepare_data produces one window of length 1, not 2. -/
theorem c1_prepare_data_short_window :
    (prepare_data 5 [1, 2]).map List.length = [1] ∧
    ¬ (prepare_data 5 [1, 2]).map List.length = [2] := by decide

/-- C1 (amended): for a series of N rows, both windowing paths produce
exactly N - time_steps windows (each of length time_steps) when
N > time_steps, and exactly one window when N ≤ time_steps — of length N on
the inference path but of length N - 1 (natural subtraction) in
_prepare_data; in every case at least one window is produced and no path
crashes. -/
theorem c1_window_counts (time_steps : ℕ) (xs : List ℚ) :
    (inference_windows time_steps xs).map List.length =
      (if time_steps < xs.length
       then List.replicate (xs.length - time_steps) time_steps
       else [xs.length]) ∧
    (prepare_data time_steps xs).map List.length =
      (if time_steps < xs.length
       then List.replicate (xs.length - time_steps) time_steps
       else [xs.length - 1]) ∧
    1 ≤ (inference_windows time_steps xs).length ∧
    1 ≤ (prepare_data time_steps xs).length := by
  refine ⟨?_, ?_, ?_, ?_⟩
  · simp only [inference_windows]
    by_cases h : time_steps < xs.length
    · rw [if_pos h, min_eq_left h.le, if_neg (by omega), List.map_map]
      apply map_range_eq_replicate
      intro k hk
      simp only [Function.comp_apply, List.length_take, List.length_drop]
      omega
    · rw [if_neg h, min_eq_right (by omega), if_pos (le_refl _)]
      simp
  · simp only [prepare_data]
    by_cases h0 : xs.length = 0
    · rw [if_pos h0, if_neg (by omega)]
      simp [h0]
    · rw [if_neg h0]
      by_cases h : time_steps < xs.length
      · rw [if_pos h, if_neg (by omega), List.map_map]
        apply map_range_eq_replicate
        intro k hk
        simp only [Function.comp_apply, List.length_take, List.length_drop]
        omega
      · rw [if_neg h, if_pos (by omega)]
        have h1 : xs.length - (xs.length - 1) = 1 := by omega
        rw [h1, show List.range 1 = [0] from rfl]
        simp only [List.map_cons, List.map_nil, List.drop_zero,
          List.length_take]
        congr 1
        omega
  · simp only [inference_windows]
    split
    · simp
    · simp only [List.length_map, List.length_range]
      omega
  · simp only [prepare_data]
    split
    · simp
    · split <;> (simp only [List.length_map, List.length_range]; omega)

/-! ## C2: rollout length and self-feeding windows -/

/-- C2: a forecast rollout of a caller-specified number of steps produces
exactly steps predictions; the rollout starts from the most recent window
(the last time_steps scaled values) and at each iteration, in the forecast
loop as in the inference loop, the next window drops the oldest element of
the current window and appends the newly predicted scaled value. -/
theorem c2_rollout_self_feeding {σ : Type} (f : List ℚ → Option σ → ℚ × σ)
    (time_steps steps : ℕ) (closes : List ℚ) (h : time_steps ≤ closes.length) :
    (∃ l, forecast f time_steps steps closes = .ok l ∧ l.length = steps) ∧
    forecast f time_steps steps closes = .ok ((List.range steps).map (fun k =>
      (fitScaler closes).inverse_transform
        (f (forecastTraj f
              ((closes.map (fitScaler closes).transform).drop
                (closes.length - time_steps)) k) none).1)) ∧
    (∀ (w0 : List ℚ) (k : ℕ),
      forecastTraj f w0 (k + 1) =
        (forecastTraj f w0 k).drop 1 ++ [(f (forecastTraj f w0 k) none).1]) ∧
    (∀ (n : ℕ) (w0 : List ℚ) (st0 : Option σ),
      inferLoop f n w0 st0 = (List.range n).map
        (fun k => (f (inferTraj f w0 st0 k).1 (inferTraj f w0 st0 k).2).1)) ∧
    (∀ (w0 : List ℚ) (st0 : Option σ) (k : ℕ),
      (inferTraj f w0 st0 (k + 1)).1 =
        (inferTraj f w0 st0 k).1.drop 1 ++
          [(f (inferTraj f w0 st0 k).1 (inferTraj f w0 st0 k).2).1]) := by
  have hmap := forecastLoop_eq_traj f (fitScaler closes) steps
    ((closes.map (fitScaler closes).transform).drop (closes.length - time_steps))
  refine ⟨?_, ?_, ?_, ?_, ?_⟩
  · exact ⟨_, forecast_eq_loop f time_steps steps closes h, by
      rw [hmap]; simp⟩
  · rw [forecast_eq_loop f time_steps steps closes h, hmap]
  · intro w0 k; rfl
  · intro n w0 st0; exact inferLoop_eq_traj f n w0 st0
  · intro w0 st0 k; rfl

/-- C2 witness: with the head-plus-nothing regression function, three
forecast steps over the five-point series produce exactly three values. -/
theorem c2_rollout_self_feeding_witness :
    (2 ≤ ([1, 2, 3, 4, 5] : List ℚ).length) ∧
    (∃ l, forecast (fun (w : List ℚ) (_ : Option Unit) => (w.headD 0, ()))
        2 3 [1, 2, 3, 4, 5] = .ok l ∧ l.length = 3) :=
  ⟨by decide,
   (c2_rollout_self_feeding (fun (w : List ℚ) (_ : Option Unit) => (w.headD 0, ()))
      2 3 [1, 2, 3, 4, 5] (by decide)).1⟩

/-! ## C3: carried state -/

/-- C3 counterexample: the claim says that in forecast, as in inference,
the carried state produced by step k is passed into step k + 1; but the
source forecast discards the returned state and calls the model with no
state at every step. With the state-probing regression function on the
series [0, 1] (time_steps 1, 2 steps) the program returns [0, 0], while a
forecast that threaded the state as the claim describes would return
[0, 1]. -/
theorem c3_forecast_discards_state :
    forecast fStateProbe 1 2 [0, 1] = .ok [0, 0] ∧
    forecastLoopThreaded fStateProbe (fitScaler [0, 1]) 2
      ((([0, 1] : List ℚ).map (fitScaler [0, 1]).transform).drop 1) none = [0, 1] ∧
    ([0, 0] : List ℚ) ≠ [0, 1] := by
  refine ⟨?_, ?_, by norm_num⟩
  · norm_num [forecast, forecastLoop, fStateProbe, fitScaler,
      listMin, listMax, MinMaxScalerQ.rangeDenom, MinMaxScalerQ.transform,
      MinMaxScalerQ.inverse_transform, List.foldl, min_def, max_def]
  · norm_num [forecastLoopThreaded, fStateProbe, fitScaler,
      listMin, listMax, MinMaxScalerQ.rangeDenom, MinMaxScalerQ.transform,
      MinMaxScalerQ.inverse_transform, List.foldl, min_def, max_def]

/-- C3 (amended): within one inference rollout the carried state entering
step k + 1 is exactly the state produced by step k, starting from no
carried state (each invocation passes none, so no state crosses rollouts);
within one forecast rollout, however, the source discards the returned
state and every step runs with no carried state. -/
theorem c3_state_threading {σ : Type} (f : List ℚ → Option σ → ℚ × σ) :
    (∀ (w0 : List ℚ) (st0 : Option σ) (k : ℕ),
      (inferTraj f w0 st0 (k + 1)).2 =
        some (f (inferTraj f w0 st0 k).1 (inferTraj f w0 st0 k).2).2) ∧
    (∀ (n : ℕ) (w0 : List ℚ),
      inferLoop f n w0 none = (List.range n).map
        (fun k => (f (inferTraj f w0 none k).1 (inferTraj f w0 none k).2).1)) ∧
    (∀ (s : MinMaxScalerQ) (n : ℕ) (w0 : List ℚ),
      forecastLoop f s n w0 = (List.range n).map
        (fun k => s.inverse_transform (f (forecastTraj f w0 k) none).1)) := by
  refine ⟨fun w0 st0 k => rfl, ?_, ?_⟩
  · intro n w0; exact inferLoop_eq_traj f n w0 none
  · intro s n w0; exact forecastLoop_eq_traj f s n w0

/-! ## C4: inverse scaling with the entry-fitted bounds -/

/-- Outcome of the post-windowing stage of inference once the rollout step
count n is fixed: the returned list is exactly the raw scaled rollout
predictions mapped through the inverse transform of the given scaler,
followed by edge padding that repeats the last of those values. -/
theorem inference_ok_core {σ : Type} (f : List ℚ → Option σ → ℚ × σ)
    (s : MinMaxScalerQ) (N n : ℕ) (w0 : List ℚ) (l : List ℚ) (hnle : n ≤ N)
    (h : (if (inferLoop f n w0 none).length = 0 then
            (Except.error "No predictions were generated." :
              Except String (List ℚ))
          else if ((inferLoop f n w0 none).map s.inverse_transform).length < N
          then
            .ok ((inferLoop f n w0 none).map s.inverse_transform ++
              List.replicate
                (N - ((inferLoop f n w0 none).map s.inverse_transform).length)
                (((inferLoop f n w0 none).map s.inverse_transform).getLastD 0))
          else .ok ((inferLoop f n w0 none).map s.inverse_transform)) =
        .ok l) :
    l = (inferLoop f n w0 none).map s.inverse_transform ++
        List.replicate (N - n)
          (((inferLoop f n w0 none).map s.inverse_transform).getLastD 0) := by
  have hlen : ((inferLoop f n w0 none).map s.inverse_transform).length = n := by
    rw [List.length_map, inferLoop_length]
  split at h
  · exact absurd h (by simp)
  case _ hpred =>
    split at h
    case _ hlt =>
      injection h with h
      subst h
      rw [hlen]
    case _ hge =>
      injection h with h
      subst h
      have hz : N - n = 0 := by omega
      rw [hz]
      simp

/-- Whenever inference succeeds, the returned list is exactly the raw
scaled rollout predictions mapped through the inverse transform of the
scaler fitted on the input closes at entry, followed by edge padding
repeating the last of those values. -/
theorem inference_ok_eq {σ : Type} (f : List ℚ → Option σ → ℚ × σ)
    (time_steps : ℕ) (closes l : List ℚ)
    (h : inference f time_steps closes = .ok l) :
    l = (inferLoop f (num_raw_preds time_steps closes)
          ((inference_windows time_steps
            (closes.map (fitScaler closes).transform)).getLastD []) none).map
          (fitScaler closes).inverse_transform ++
        List.replicate (closes.length - num_raw_preds time_steps closes)
          (((inferLoop f (num_raw_preds time_steps closes)
            ((inference_windows time_steps
              (closes.map (fitScaler closes).transform)).getLastD []) none).map
            (fitScaler closes).inverse_transform).getLastD 0) := by
  simp only [inference, inference_given_windows] at h
  rw [num_raw_preds]
  split at h
  · exact absurd h (by simp)
  case _ hW =>
    split at h
    case _ h1 =>
      rw [if_pos h1]
      exact inference_ok_core f (fitScaler closes) closes.length closes.length
        _ l (le_refl _) h
    case _ h1 =>
      rw [if_neg h1]
      exact inference_ok_core f (fitScaler closes) closes.length
        (closes.length - min time_steps closes.length) _ l (by omega) h

/-- C4: both prediction paths inverse-scale with exactly the scaler fitted
on the input series at entry (a function of the input closes alone, never
of the predictions): forecast returns the inverse transform of each scaled
rollout prediction under that scaler, and inference, whenever it succeeds,
returns exactly its raw scaled rollout predictions mapped through the
inverse transform of that scaler (followed by edge padding of the last of
those values); moreover scaling followed by inverse scaling returns any
value in the fitted range unchanged — exactly, in rational arithmetic. -/
theorem c4_inverse_scaling {σ : Type} (f : List ℚ → Option σ → ℚ × σ)
    (time_steps steps : ℕ) (closes : List ℚ) (h : time_steps ≤ closes.length)
    (x : ℚ) (hx1 : (fitScaler closes).data_min ≤ x)
    (hx2 : x ≤ (fitScaler closes).data_max) :
    forecast f time_steps steps closes = .ok ((List.range steps).map (fun k =>
      (fitScaler closes).inverse_transform
        (f (forecastTraj f
              ((closes.map (fitScaler closes).transform).drop
                (closes.length - time_steps)) k) none).1)) ∧
    (∀ l, inference f time_steps closes = .ok l →
      l = (inferLoop f (num_raw_preds time_steps closes)
            ((inference_windows time_steps
              (closes.map (fitScaler closes).transform)).getLastD []) none).map
            (fitScaler closes).inverse_transform ++
          List.replicate (closes.length - num_raw_preds time_steps closes)
            (((inferLoop f (num_raw_preds time_steps closes)
              ((inference_windows time_steps
                (closes.map (fitScaler closes).transform)).getLastD []) none).map
              (fitScaler closes).inverse_transform).getLastD 0)) ∧
    (fitScaler closes).inverse_transform ((fitScaler closes).transform x) = x := by
  refine ⟨?_, ?_, scaler_roundtrip (fitScaler closes) x⟩
  · rw [forecast_eq_loop f time_steps steps closes h,
      forecastLoop_eq_traj f (fitScaler closes) steps]
  · intro l hl
    exact inference_ok_eq f time_steps closes l hl

/-- C4 witness: on the series [1, 3] the fitted bounds are 1 and 3 and the
value 2 survives the scale/inverse-scale round trip exactly; the same
instantiation discharges the entry-bounds conjuncts for forecast and
inference. -/
theorem c4_inverse_scaling_witness :
    (1 ≤ ([1, 3] : List ℚ).length ∧ (fitScaler [1, 3]).data_min ≤ 2 ∧
      (2 : ℚ) ≤ (fitScaler [1, 3]).data_max) ∧
    (fitScaler [1, 3]).inverse_transform ((fitScaler [1, 3]).transform 2) = 2 :=
  ⟨by decide,
   (c4_inverse_scaling (fun (w : List ℚ) (_ : Option Unit) => (w.headD 0, ()))
      1 1 [1, 3] (by decide) 2 (by decide) (by decide)).2.2⟩

/-! ## C5: padding -/

theorem getD_last_eq_getLastD {α : Type} (xs : List α) (d : α) (hx : xs ≠ []) :
    xs.getD (xs.length - 1) d = xs.getLastD d := by
  induction xs with
  | nil => exact absurd rfl hx
  | cons a t ih =>
    cases t with
    | nil => rfl
    | cons b t2 =>
      have h1 : (a :: b :: t2).length - 1 = (b :: t2).length - 1 + 1 := by
        simp only [List.length_cons]
        omega
      rw [h1]
      simpa using ih (by simp)

/-- Outcome of the post-windowing stage of inference once the rollout step
count n is fixed: the returned list has the row count as its length and its
tail past the raw predictions repeats the final predicted value. -/
theorem c5_core {σ : Type} (f : List ℚ → Option σ → ℚ × σ)
    (s : MinMaxScalerQ) (N n : ℕ) (w0 : List ℚ) (l : List ℚ) (hnle : n ≤ N)
    (h : (if (inferLoop f n w0 none).length = 0 then
            (Except.error "No predictions were generated." :
              Except String (List ℚ))
          else if ((inferLoop f n w0 none).map s.inverse_transform).length < N
          then
            .ok ((inferLoop f n w0 none).map s.inverse_transform ++
              List.replicate
                (N - ((inferLoop f n w0 none).map s.inverse_transform).length)
                (((inferLoop f n w0 none).map s.inverse_transform).getLastD 0))
          else .ok ((inferLoop f n w0 none).map s.inverse_transform)) =
        .ok l) :
    l.length = N ∧
    l.drop n = List.replicate (N - n) (l.getD (n - 1) 0) := by
  have hlen : ((inferLoop f n w0 none).map s.inverse_transform).length = n := by
    rw [List.length_map, inferLoop_length]
  split at h
  · exact absurd h (by simp)
  case _ hpred =>
    have hne : (inferLoop f n w0 none).map s.inverse_transform ≠ [] := by
      intro hcon
      exact hpred (by
        rw [← List.length_map (inferLoop f n w0 none) s.inverse_transform,
          hcon]
        rfl)
    generalize (inferLoop f n w0 none).map s.inverse_transform = inv
      at hlen hne h
    split at h
    case _ hlt =>
      injection h with h
      subst h
      constructor
      · simp only [List.length_append, List.length_replicate]
        omega
      · rw [← hlen, List.drop_left,
          List.getD_append _ _ _ _
            (by have := List.length_pos.mpr hne; omega),
          getD_last_eq_getLastD _ _ hne]
    case _ hlt =>
      injection h with h
      subst h
      refine ⟨by omega, ?_⟩
      rw [← hlen, List.drop_length]
      have hz : N - inv.length = 0 := by omega
      rw [hz]
      rfl

/-- C5: whenever inference succeeds, the returned prediction list has
exactly the length of the (resampled) input series, and every entry past
the raw rollout predictions repeats the final predicted value (edge
padding). -/
theorem c5_padding {σ : Type} (f : List ℚ → Option σ → ℚ × σ)
    (time_steps : ℕ) (closes : List ℚ) (l : List ℚ)
    (h : inference f time_steps closes = .ok l) :
    l.length = closes.length ∧
    l.drop (num_raw_preds time_steps closes) =
      List.replicate (closes.length - num_raw_preds time_steps closes)
        (l.getD (num_raw_preds time_steps closes - 1) 0) := by
  simp only [inference, inference_given_windows] at h
  rw [num_raw_preds]
  split at h
  · exact absurd h (by simp)
  case _ hW =>
    split at h
    case _ h1 =>
      rw [if_pos h1]
      exact c5_core f (fitScaler closes) closes.length closes.length _ l
        (le_refl _) h
    case _ h1 =>
      rw [if_neg h1]
      exact c5_core f (fitScaler closes) closes.length
        (closes.length - min time_steps closes.length) _ l (by omega) h

/-- C5 witness: on the five-row series with time_steps 2 the rollout yields
three raw predictions 7, 8, 11 and the output is padded with two repeats of
the final value 11, so its length equals the five input rows. -/
theorem c5_padding_witness :
    (inference (fun (w : List ℚ) (_ : Option Unit) => (w.headD 0 + 1, ()))
        2 [1, 2, 3, 4, 5] = .ok [7, 8, 11, 11, 11]) ∧
    ([7, 8, 11, 11, 11] : List ℚ).length = ([1, 2, 3, 4, 5] : List ℚ).length := by
  have he : inference (fun (w : List ℚ) (_ : Option Unit) => (w.headD 0 + 1, ()))
      2 [1, 2, 3, 4, 5] = .ok [7, 8, 11, 11, 11] := by
    norm_num [inference, inference_given_windows, inference_windows, inferLoop,
      fitScaler, listMin, listMax, MinMaxScalerQ.rangeDenom,
      MinMaxScalerQ.transform, MinMaxScalerQ.inverse_transform,
      List.foldl, min_def, max_def, List.range_succ, List.replicate]
  exact ⟨he, (c5_padding (fun (w : List ℚ) (_ : Option Unit) => (w.headD 0 + 1, ()))
    2 [1, 2, 3, 4, 5] [7, 8, 11, 11, 11] he).1⟩

/-! ## C6: zero windows is an error -/

/-- C6: when windowing yields zero windows, the post-windowing stage of
inference fails with the insufficient-data error (the ValueError of lines
202-205) and in particular never returns a silent empty (or any ok)
result. -/
theorem c6_zero_windows_error {σ : Type} (f : List ℚ → Option σ → ℚ × σ)
    (s : MinMaxScalerQ) (n_rows time_steps : ℕ) :
    inference_given_windows f s n_rows time_steps [] =
      .error "No sequences were generated for testing. Check if input data is sufficient." ∧
    ∀ res : List ℚ, inference_given_windows f s n_rows time_steps [] ≠ .ok res := by
  refine ⟨rfl, ?_⟩
  intro res hcontra
  simp [inference_given_windows] at hcontra

/-- C6 witness: the post-windowing stage applied to an empty window list
returns the insufficient-data error. -/
theorem c6_zero_windows_error_witness :
    inference_given_windows (fun (w : List ℚ) (_ : Option Unit) => (w.headD 0, ()))
      ⟨0, 1⟩ 3 2 [] =
      .error "No sequences were generated for testing. Check if input data is sufficient." :=
  (c6_zero_windows_error (fun (w : List ℚ) (_ : Option Unit) => (w.headD 0, ()))
    ⟨0, 1⟩ 3 2).1

/-! ## C7: fetch failures -/

/-- C7 counterexample: the claim says every fetch failure is converted into
an explicitly-empty table and never raises past the fetcher; but the Tiingo
stock fetch has no try/except around requests.get, so a network error
propagates out of it instead of producing the empty table. -/
theorem c7_stock_fetch_propagates :
    fetch_tiingo_stock_data (.requestError "connection error") =
      .error "connection error" ∧
    fetch_tiingo_stock_data (.requestError "connection error") ≠ .ok [] := by
  refine ⟨rfl, ?_⟩
  intro hc
  simp [fetch_tiingo_stock_data] at hc

/-- C7 (amended): the Tiingo crypto fetch returns an explicitly-empty table
on every fetch failure — network error, error status (raise_for_status) or
malformed JSON — and never raises; the Tiingo stock fetch returns an empty
table on a non-success status, but a network error or a malformed JSON body
propagates out of it uncaught. -/
theorem c7_fetch_failure_behavior (e msg : String) (status : ℕ)
    (sbody : Except String (List OHLCVRow))
    (cbody : Except String (List CryptoItem)) :
    fetch_tiingo_crypto_data (.requestError e) = .ok [] ∧
    (400 ≤ status → fetch_tiingo_crypto_data (.response status cbody) = .ok []) ∧
    fetch_tiingo_crypto_data (.response status (.error msg)) = .ok [] ∧
    (status ≠ 200 → fetch_tiingo_stock_data (.response status sbody) = .ok []) ∧
    fetch_tiingo_stock_data (.requestError e) = .error e ∧
    fetch_tiingo_stock_data (.response 200 (.error msg)) = .error msg := by
  refine ⟨rfl, ?_, ?_, ?_, rfl, rfl⟩
  · intro h4
    simp only [fetch_tiingo_crypto_data]
    rw [if_pos h4]
  · simp only [fetch_tiingo_crypto_data]
    split
    · rfl
    · rfl
  · intro hne
    simp only [fetch_tiingo_stock_data]
    rw [if_pos hne]

/-- C7 witness: a 404 status on the stock fetch and a network error on the
crypto fetch both yield the empty table, while the same network error makes
the stock fetch raise. -/
theorem c7_fetch_failure_behavior_witness :
    ((404 : ℕ) ≠ 200 ∧ (400 : ℕ) ≤ 404) ∧
    fetch_tiingo_crypto_data (.requestError "timeout") = .ok [] ∧
    fetch_tiingo_crypto_data (.response 404 (.ok [])) = .ok [] ∧
    fetch_tiingo_stock_data (.response 404 (.ok [])) = .ok [] :=
  ⟨by decide,
   (c7_fetch_failure_behavior "timeout" "bad json" 404 (.ok []) (.ok [])).1,
   (c7_fetch_failure_behavior "timeout" "bad json" 404 (.ok []) (.ok [])).2.1
     (by decide),
   (c7_fetch_failure_behavior "timeout" "bad json" 404 (.ok []) (.ok [])).2.2.2.1
     (by decide)⟩

/-! ## C8: unsupported ticker -/

/-- C8: a ticker whose uppercased form is not in the supported coin mapping
makes fetch_real_time_data return the empty table, before any network
interaction and without raising. -/
theorem c8_unsupported_ticker (resp : HttpResult MarketChart) (ticker : String)
    (h : COIN_MAPPING.find? (fun p => p.1 = upperStr ticker) = none) :
    fetch_real_time_data resp ticker = [] := by
  simp only [fetch_real_time_data, h, Option.isNone_none, if_true]

/-- C8 witness: the unsupported ticker XYZ gives the empty table. -/
theorem c8_unsupported_ticker_witness :
    (COIN_MAPPING.find? (fun p => p.1 = upperStr "XYZ") = none) ∧
    fetch_real_time_data (.requestError "offline") "XYZ" = [] :=
  ⟨by decide, c8_unsupported_ticker (.requestError "offline") "XYZ" (by decide)⟩

/-! ## C9: train/validation split -/

/-- C9: the code evaluated at the failing input. With 4 windows and
validation fraction 1/5 the computed val_size is int(4 * 0.2) = 0, and the
Python slices x_train[:-0] and x_train[-0:] then make the training set
empty and the validation set the whole window list — where the claimed
split (validation = last 0 windows, training = the rest) would keep all 4
windows for training. -/
theorem c9_val_size_zero_bug :
    train_val_split (1 / 5) [[1], [2], [3], [4]] =
      ([], [[1], [2], [3], [4]]) ∧
    train_val_split (1 / 5) [[1], [2], [3], [4]] ≠
      ([[1], [2], [3], [4]], []) := by
  constructor
  · norm_num [train_val_split, pySliceToNeg, pySliceFromNeg, Nat.floor_eq_zero]
  · norm_num [train_val_split, pySliceToNeg, pySliceFromNeg, Nat.floor_eq_zero]
    exact List.cons_ne_nil _ _

/-! ## C10: synthetic OHLC columns -/

theorem synthRows_length (pc : Option ℚ) (l : List (ℕ × ℚ × ℚ)) :
    (synthRows pc l).length = l.length := by
  induction l generalizing pc with
  | nil => rfl
  | cons x rest ih =>
    obtain ⟨t, c, v⟩ := x
    simp [synthRows, ih]

theorem synthRows_lowhigh (pc : Option ℚ) (l : List (ℕ × ℚ × ℚ))
    (row : OHLCVRow) (hrow : row ∈ synthRows pc l) :
    row.low = min row.open_ row.close ∧
    row.high = max row.open_ row.close := by
  induction l generalizing pc with
  | nil => simp [synthRows] at hrow
  | cons x rest ih =>
    obtain ⟨t, c, v⟩ := x
    simp only [synthRows, List.mem_cons] at hrow
    rcases hrow with h | h
    · subst h
      exact ⟨rfl, rfl⟩
    · exact ih _ h

theorem synthRows_open_chain (d : OHLCVRow) (pc : Option ℚ)
    (l : List (ℕ × ℚ × ℚ)) :
    ∀ i : ℕ, i + 1 < l.length →
      ((synthRows pc l).getD (i + 1) d).open_ =
        ((synthRows pc l).getD i d).close := by
  induction l generalizing pc with
  | nil =>
    intro i hi
    simp at hi
  | cons x rest ih =>
    obtain ⟨t, c, v⟩ := x
    intro i hi
    cases i with
    | zero =>
      cases rest with
      | nil => simp at hi
      | cons y r2 =>
        obtain ⟨t2, c2, v2⟩ := y
        simp [synthRows]
    | succ j =>
      have hj : j + 1 < rest.length := by
        simp only [List.length_cons] at hi
        omega
      simpa [synthRows] using ih (some c) j hj

theorem synthRows_first_open (d : OHLCVRow) (l : List (ℕ × ℚ × ℚ))
    (h0 : 0 < l.length) :
    ((synthRows none l).getD 0 d).open_ =
      ((synthRows none l).getD 0 d).close := by
  cases l with
  | nil => simp at h0
  | cons x rest =>
    obtain ⟨t, c, v⟩ := x
    simp [synthRows]

/-- Every table coming out of fetch_real_time_data is either empty or a
synthRows table started with no previous close. -/
theorem fetch_real_time_data_shape (resp : HttpResult MarketChart)
    (ticker : String) :
    fetch_real_time_data resp ticker = [] ∨
    ∃ pv, fetch_real_time_data resp ticker = synthRows none pv := by
  by_cases h1 : (COIN_MAPPING.find? (fun p => p.1 = upperStr ticker)).isNone = true
  · left
    simp only [fetch_real_time_data, h1, if_true]
  · cases resp with
    | requestError e =>
      left
      simp only [fetch_real_time_data, h1]
      rfl
    | response status body =>
      by_cases h2 : status ≥ 400
      · left
        simp only [fetch_real_time_data, h1]
        rw [if_pos h2]
        rfl
      · cases body with
        | error e =>
          left
          simp only [fetch_real_time_data, h1]
          rw [if_neg h2]
          rfl
        | ok data =>
          by_cases h3 : data.prices.length = 0 ∨ data.total_volumes.length = 0
          · left
            simp only [fetch_real_time_data, h1]
            rw [if_neg h2, if_pos h3]
            rfl
          · right
            refine ⟨mergeOnTimestamp data.prices data.total_volumes, ?_⟩
            simp only [fetch_real_time_data, h1]
            rw [if_neg h2, if_neg h3]
            rfl

/-- C10: every row of a nonempty table returned by fetch_real_time_data
has low = min(open, close) and high = max(open, close) — hence
low ≤ open ≤ high and low ≤ close ≤ high — its successor row opens at the
close of this row, and the first row opens at its own close: the open, high and
low columns are synthesized from close. -/
theorem c10_synthetic_ohlc (resp : HttpResult MarketChart) (ticker : String)
    (i : ℕ) (hi : i < (fetch_real_time_data resp ticker).length) :
    syntheticOHLCInvariant (fetch_real_time_data resp ticker) i := by
  rcases fetch_real_time_data_shape resp ticker with hsh | ⟨pv, hsh⟩
  · rw [hsh] at hi
    simp at hi
  · rw [hsh] at hi ⊢
    have hlen : (synthRows none pv).length = pv.length := synthRows_length none pv
    have hmem : (synthRows none pv).getD i default ∈ synthRows none pv := by
      rw [List.getD_eq_getElem _ _ hi]
      exact List.getElem_mem _
    obtain ⟨hl, hh⟩ := synthRows_lowhigh none pv _ hmem
    refine ⟨hl, hh, ?_, ?_, ?_, ?_, ?_, ?_⟩
    · rw [hl]
      exact min_le_left _ _
    · rw [hh]
      exact le_max_left _ _
    · rw [hl]
      exact min_le_right _ _
    · rw [hh]
      exact le_max_right _ _
    · intro hj
      exact synthRows_open_chain default none pv i (by rwa [hlen] at hj)
    · exact synthRows_first_open default pv (by omega)

/-- C10 witness: a successful two-point CoinGecko response for BTC gives
two rows whose synthetic columns satisfy the invariant at index 1. -/
theorem c10_synthetic_ohlc_witness :
    (1 < (fetch_real_time_data
        (.response 200 (.ok ⟨[(0, 5), (1, 3)], [(0, 10), (1, 11)]⟩))
        "BTC").length) ∧
    syntheticOHLCInvariant
      (fetch_real_time_data
        (.response 200 (.ok ⟨[(0, 5), (1, 3)], [(0, 10), (1, 11)]⟩)) "BTC") 1 :=
  ⟨by decide,
   c10_synthetic_ohlc
     (.response 200 (.ok ⟨[(0, 5), (1, 3)], [(0, 10), (1, 11)]⟩)) "BTC" 1
     (by decide)⟩

end MakerHook
